import Mathlib

/-!
Verification of the orchestration engine in src/pipeline_scheduler.py.

The scheduler composes three stages (ingestion, parallel analysis,
alerting) and drives them from a polling loop keyed to the minute marks
0, 15, 30, 45.  External collaborators (the python scripts it spawns)
are opaque: the embedding models each configured script by whether it
exists on disk (os.path.exists) and by the exit status its process
terminates with.  Behavior of each method is embedded as a pure function
producing the list of observable events (process invocations, waits and
log lines) together with a result, mirroring the control flow of the
source line by line.
-/

/-- One configured external script, as the scheduler observes it:
whether the file exists on disk and the exit status its process would
terminate with when invoked.  (The scheduler never inspects output
content, only pass/fail, per the contract.) -/
structure TaskSpec where
  onDisk : Bool
  exitCode : Nat
deriving DecidableEq, Repr

/-- The configuration of a run of the scheduler: the ingestion script,
the ordered list of analysis indicator scripts (four are configured in
PipelineScheduler.__init__), and the alert script. -/
structure Env where
  ingestion : TaskSpec
  indicators : List TaskSpec
  alert : TaskSpec
deriving DecidableEq, Repr

/-- Observable events of one pipeline execution: process invocations,
joins and the log lines of pipeline_scheduler.py.  Indicator events
carry the index of the script in the configured list. -/
inductive Event where
  | runIngestion
  | errMissingIngestion
  | launchIndicator (i : Nat)
  | warnMissingIndicator (i : Nat)
  | waitIndicator (i : Nat)
  | logAllCalculated
  | runAlert
  | errMissingAlert
  | logElapsed
  | logPipelineFailed
deriving DecidableEq, Repr

/-- Result of a sequential stage call: normal return, or a raised
subprocess.CalledProcessError (subprocess.run with check equal True
raises exactly when the process exits nonzero). -/
inductive StepResult where
  | ok
  | calledProcessError
deriving DecidableEq, Repr

/-- PipelineScheduler.run_ingestion: if the ingestion script exists it
is run with check equal True (raising CalledProcessError on a nonzero
exit); if it does not exist, an error is logged and the method returns
normally. -/
def run_ingestion (t : TaskSpec) : List Event × StepResult :=
  if t.onDisk then
    ([Event.runIngestion],
      if t.exitCode = 0 then StepResult.ok else StepResult.calledProcessError)
  else
    ([Event.errMissingIngestion], StepResult.ok)

/-- Launch loop of run_analysis_parallel: for each configured script in
order, Popen it if it exists (recording the launch) or log a warning.
The parameter k is the index of the first script of l in the configured
list. -/
def launchPhase : List TaskSpec → Nat → List Event
  | [], _ => []
  | t :: rest, k =>
    (if t.onDisk then [Event.launchIndicator k] else [Event.warnMissingIndicator k])
      ++ launchPhase rest (k + 1)

/-- Indices of the scripts that exist on disk, in configured order: the
process handles collected by the launch loop. -/
def launchedIdxs : List TaskSpec → Nat → List Nat
  | [], _ => []
  | t :: rest, k =>
    (if t.onDisk then [k] else []) ++ launchedIdxs rest (k + 1)

/-- PipelineScheduler.run_analysis_parallel: launch every existing
indicator script concurrently, then wait for each collected process in
order and log completion.  The return value of p.wait() is discarded by
the source, so exit codes of the indicator processes do not influence
anything; the method never raises. -/
def run_analysis_parallel (indicators : List TaskSpec) : List Event :=
  launchPhase indicators 0
    ++ (launchedIdxs indicators 0).map Event.waitIndicator
    ++ [Event.logAllCalculated]

/-- PipelineScheduler.run_alerting: same shape as run_ingestion, for the
alert script. -/
def run_alerting (t : TaskSpec) : List Event × StepResult :=
  if t.onDisk then
    ([Event.runAlert],
      if t.exitCode = 0 then StepResult.ok else StepResult.calledProcessError)
  else
    ([Event.errMissingAlert], StepResult.ok)

/-- Terminal state of one pipeline run.  Completed is the success path
of execute_pipeline (the log line reporting the elapsed time); Aborted
is the except path (a CalledProcessError escaped a stage and the
pipeline-failed line is logged). -/
inductive Outcome where
  | Completed
  | Aborted
deriving DecidableEq, Repr

/-- PipelineScheduler.execute_pipeline: run the three stages in order
inside a try block; a CalledProcessError raised by ingestion skips
analysis and alerting and lands in the except handler; a
CalledProcessError raised by alerting likewise lands there; on normal
return of all three stages the elapsed duration is logged. -/
def execute_pipeline (env : Env) : List Event × Outcome :=
  match run_ingestion env.ingestion with
  | (e1, StepResult.calledProcessError) =>
      (e1 ++ [Event.logPipelineFailed], Outcome.Aborted)
  | (e1, StepResult.ok) =>
      let e2 := run_analysis_parallel env.indicators
      match run_alerting env.alert with
      | (e3, StepResult.calledProcessError) =>
          (e1 ++ e2 ++ e3 ++ [Event.logPipelineFailed], Outcome.Aborted)
      | (e3, StepResult.ok) =>
          (e1 ++ e2 ++ e3 ++ [Event.logElapsed], Outcome.Completed)

/-- The trigger marks: the keys of the executed_minutes dict. -/
def triggerMarks : List Nat := [0, 15, 30, 45]

/-- The executed_minutes dict of start_scheduler: one executed flag per
trigger mark. -/
structure WindowState where
  e0 : Bool
  e15 : Bool
  e30 : Bool
  e45 : Bool
deriving DecidableEq, Repr

/-- Lookup of the executed flag for a minute value (false on a minute
that is not a key; the source only reads the dict at keys). -/
def WindowState.flag (s : WindowState) : Nat → Bool
  | 0 => s.e0
  | 15 => s.e15
  | 30 => s.e30
  | 45 => s.e45
  | _ => false

/-- The initial dict: every mark maps to False. -/
def initWindow : WindowState :=
  { e0 := false, e15 := false, e30 := false, e45 := false }

/-- The update performed after a triggered run: set the flag of the
current minute to True, then reset the flag of every other mark to
False.  The source only reaches this update when cur is a key of the
dict. -/
def markExecuted (_s : WindowState) (cur : Nat) : WindowState :=
  { e0 := decide (cur = 0), e15 := decide (cur = 15),
    e30 := decide (cur = 30), e45 := decide (cur = 45) }

/-- The admission gate of the polling loop, as the specification names
it: a run starts at minute m exactly when m is a trigger mark whose
executed flag is not set. -/
def shouldRun (s : WindowState) (m : Nat) : Bool :=
  decide (m ∈ triggerMarks) && !(s.flag m)

/-- One iteration of the while loop of start_scheduler at wall-clock
minute cur: if cur is a key of executed_minutes and its flag is not
set, execute the full pipeline, mark the slot done and reset the other
marks; otherwise do nothing.  Returns the new dict, the events of the
iteration and the admitted run (minute and outcome), if any. -/
def pollStep (env : Env) (s : WindowState) (cur : Nat) :
    WindowState × List Event × Option (Nat × Outcome) :=
  if cur ∈ triggerMarks then
    if s.flag cur = false then
      let r := execute_pipeline env
      (markExecuted s cur, r.1, some (cur, r.2))
    else
      (s, [], none)
  else
    (s, [], none)

/-- The polling loop driven by a simulated clock: one pollStep per
entry of the minute sequence (the real loop samples datetime.now every
10 seconds; a 60 minute simulation is six polls per minute).  Returns
the final dict and the admitted runs in order. -/
def runPolls (env : Env) : WindowState → List Nat → WindowState × List (Nat × Outcome)
  | s, [] => (s, [])
  | s, cur :: rest =>
    let step := pollStep env s cur
    let next := runPolls env step.1 rest
    (next.1, step.2.2.toList ++ next.2)

/-- Number of marks whose executed flag is set. -/
def WindowState.trueCount (s : WindowState) : Nat :=
  (if s.e0 then 1 else 0) + (if s.e15 then 1 else 0)
    + (if s.e30 then 1 else 0) + (if s.e45 then 1 else 0)

/-- Ordering inside an event trace: every occurrence of b is preceded
by an occurrence of a. -/
def seqBefore (l : List Event) (a b : Event) : Prop :=
  ∀ l1 l2, l = l1 ++ b :: l2 → a ∈ l1

/-- A script that exists and always exits 0. -/
def okTask : TaskSpec := { onDisk := true, exitCode := 0 }

/-- The round-trip configuration: ingestion, all four configured
indicators and the alert script always succeed. -/
def allOkEnv : Env :=
  { ingestion := okTask, indicators := [okTask, okTask, okTask, okTask], alert := okTask }

/-- A configuration whose ingestion process exits with status 1 while
every other script exists and succeeds. -/
def failEnv : Env :=
  { ingestion := { onDisk := true, exitCode := 1 },
    indicators := [okTask, okTask, okTask, okTask], alert := okTask }

/-- The simulated 60 minute clock: the loop samples the wall clock every
10 seconds, hence six polls per minute over minutes 0 to 59. -/
def sixtyMinutePolls : List Nat :=
  (List.range 60).flatMap (fun m => List.replicate 6 m)

/-! ### Helper lemmas about the event segments of a pipeline run -/

lemma launchPhase_shape (l : List TaskSpec) :
    ∀ (k : Nat), ∀ e ∈ launchPhase l k,
      (∃ i, e = Event.launchIndicator i) ∨ (∃ i, e = Event.warnMissingIndicator i) := by
  induction l with
  | nil => intro k e he; simp [launchPhase] at he
  | cons t rest ih =>
      intro k e he
      simp only [launchPhase, List.mem_append] at he
      rcases he with he | he
      · by_cases ht : t.onDisk
        · simp [ht] at he; exact Or.inl ⟨k, he⟩
        · simp [ht] at he; exact Or.inr ⟨k, he⟩
      · exact ih (k + 1) e he

lemma mem_waitMap_shape (idxs : List Nat) :
    ∀ e ∈ idxs.map Event.waitIndicator, ∃ i, e = Event.waitIndicator i := by
  intro e he
  rcases List.mem_map.mp he with ⟨i, _, rfl⟩
  exact ⟨i, rfl⟩

lemma logElapsed_not_mem_analysis (l : List TaskSpec) :
    Event.logElapsed ∉ run_analysis_parallel l := by
  intro h
  simp only [run_analysis_parallel, List.append_assoc, List.mem_append] at h
  rcases h with h | h | h
  · rcases launchPhase_shape l 0 _ h with ⟨i, hi⟩ | ⟨i, hi⟩ <;> cases hi
  · rcases mem_waitMap_shape _ _ h with ⟨i, hi⟩; cases hi
  · simp at h

lemma runAlert_not_mem_analysis (l : List TaskSpec) :
    Event.runAlert ∉ run_analysis_parallel l := by
  intro h
  simp only [run_analysis_parallel, List.append_assoc, List.mem_append] at h
  rcases h with h | h | h
  · rcases launchPhase_shape l 0 _ h with ⟨i, hi⟩ | ⟨i, hi⟩ <;> cases hi
  · rcases mem_waitMap_shape _ _ h with ⟨i, hi⟩; cases hi
  · simp at h

lemma runIngestion_not_mem_analysis (l : List TaskSpec) :
    Event.runIngestion ∉ run_analysis_parallel l := by
  intro h
  simp only [run_analysis_parallel, List.append_assoc, List.mem_append] at h
  rcases h with h | h | h
  · rcases launchPhase_shape l 0 _ h with ⟨i, hi⟩ | ⟨i, hi⟩ <;> cases hi
  · rcases mem_waitMap_shape _ _ h with ⟨i, hi⟩; cases hi
  · simp at h

lemma logAll_not_mem_launchPhase (l : List TaskSpec) (k : Nat) :
    Event.logAllCalculated ∉ launchPhase l k := by
  intro h
  rcases launchPhase_shape l k _ h with ⟨i, hi⟩ | ⟨i, hi⟩ <;> cases hi

lemma logAll_not_mem_waitMap (idxs : List Nat) :
    Event.logAllCalculated ∉ idxs.map Event.waitIndicator := by
  intro h
  rcases mem_waitMap_shape _ _ h with ⟨i, hi⟩; cases hi

lemma launch_mem_launchPhase_iff (l : List TaskSpec) :
    ∀ (k i : Nat), Event.launchIndicator i ∈ launchPhase l k ↔ i ∈ launchedIdxs l k := by
  induction l with
  | nil => intro k i; simp [launchPhase, launchedIdxs]
  | cons t rest ih =>
      intro k i
      by_cases ht : t.onDisk <;>
        simp [launchPhase, launchedIdxs, ht, List.mem_append, ih (k + 1) i]

lemma run_ingestion_fst (t : TaskSpec) :
    (run_ingestion t).1 = [Event.runIngestion]
      ∨ (run_ingestion t).1 = [Event.errMissingIngestion] := by
  unfold run_ingestion; split <;> simp

lemma run_alerting_fst (t : TaskSpec) :
    (run_alerting t).1 = [Event.runAlert]
      ∨ (run_alerting t).1 = [Event.errMissingAlert] := by
  unfold run_alerting; split <;> simp

lemma execute_pipeline_ok_split (env : Env)
    (h : (run_ingestion env.ingestion).2 = StepResult.ok) :
    ∃ tail, (execute_pipeline env).1 =
      (run_ingestion env.ingestion).1 ++ (run_analysis_parallel env.indicators ++ tail)
      ∧ (∀ j, Event.launchIndicator j ∉ tail)
      ∧ (∀ j, Event.waitIndicator j ∉ tail)
      ∧ Event.logAllCalculated ∉ tail := by
  have hfst := run_alerting_fst env.alert
  unfold execute_pipeline
  rcases hri : run_ingestion env.ingestion with ⟨e1, r1⟩
  rw [hri] at h
  simp only at h
  subst h
  rcases hra : run_alerting env.alert with ⟨e3, r3⟩
  rw [hra] at hfst
  simp only at hfst
  cases r3
  · refine ⟨e3 ++ [Event.logElapsed], by simp [List.append_assoc], ?_, ?_, ?_⟩ <;>
      rcases hfst with hfst | hfst <;> simp [hfst]
  · refine ⟨e3 ++ [Event.logPipelineFailed], by simp [List.append_assoc], ?_, ?_, ?_⟩ <;>
      rcases hfst with hfst | hfst <;> simp [hfst]

lemma execute_pipeline_err_split (env : Env)
    (h : (run_ingestion env.ingestion).2 = StepResult.calledProcessError) :
    (execute_pipeline env).1 = (run_ingestion env.ingestion).1 ++ [Event.logPipelineFailed]
      ∧ (execute_pipeline env).2 = Outcome.Aborted := by
  unfold execute_pipeline
  rcases hri : run_ingestion env.ingestion with ⟨e1, r1⟩
  rw [hri] at h
  simp only at h
  subst h
  simp

/-! ### Claim theorems -/

/-- Claim C1: if the ingestion process exits with a non-zero status, the
raised CalledProcessError lands in the except handler of
execute_pipeline, so no analysis task is launched or waited on, the
alert task is not invoked, and the run terminates in the Aborted
outcome. -/
theorem ingestion_failure_aborts_run (env : Env)
    (h1 : env.ingestion.onDisk = true) (h2 : env.ingestion.exitCode ≠ 0) :
    (execute_pipeline env).2 = Outcome.Aborted
      ∧ (∀ i, Event.launchIndicator i ∉ (execute_pipeline env).1)
      ∧ (∀ i, Event.waitIndicator i ∉ (execute_pipeline env).1)
      ∧ Event.runAlert ∉ (execute_pipeline env).1 := by
  have hri : run_ingestion env.ingestion =
      ([Event.runIngestion], StepResult.calledProcessError) := by
    simp [run_ingestion, h1, h2]
  have htr : (execute_pipeline env).1 = [Event.runIngestion, Event.logPipelineFailed]
      ∧ (execute_pipeline env).2 = Outcome.Aborted := by
    have := execute_pipeline_err_split env (by rw [hri])
    simpa [hri] using this
  refine ⟨htr.2, ?_, ?_, ?_⟩ <;> simp [htr.1]

/-- Witness for C1 at a concrete configuration whose ingestion process
exits with status 1. -/
theorem ingestion_failure_aborts_run_witness :
    failEnv.ingestion.onDisk = true ∧ failEnv.ingestion.exitCode ≠ 0
      ∧ ((execute_pipeline failEnv).2 = Outcome.Aborted
        ∧ (∀ i, Event.launchIndicator i ∉ (execute_pipeline failEnv).1)
        ∧ (∀ i, Event.waitIndicator i ∉ (execute_pipeline failEnv).1)
        ∧ Event.runAlert ∉ (execute_pipeline failEnv).1) :=
  ⟨rfl, by decide, ingestion_failure_aborts_run failEnv rfl (by decide)⟩

/-- Claim C10: a poll iteration whose minute is not a trigger mark, or
whose mark is already flagged executed, leaves the window state
unchanged, produces no event (invokes no external task) and admits no
run. -/
theorem poll_frame_no_change (env : Env) (s : WindowState) (cur : Nat)
    (h : cur ∉ triggerMarks ∨ s.flag cur = true) :
    pollStep env s cur = (s, [], none) := by
  rcases h with h | h
  · simp [pollStep, h]
  · by_cases hm : cur ∈ triggerMarks
    · simp [pollStep, hm, h]
    · simp [pollStep, hm]

/-- Witness for C10: polling at minute 7 (not a mark) and at minute 15
with the mark already flagged both change nothing. -/
theorem poll_frame_no_change_witness :
    ((7 : Nat) ∉ triggerMarks ∧ pollStep allOkEnv initWindow 7 = (initWindow, [], none))
      ∧ ((markExecuted initWindow 15).flag 15 = true
        ∧ pollStep allOkEnv (markExecuted initWindow 15) 15
            = (markExecuted initWindow 15, [], none)) :=
  ⟨⟨by decide, poll_frame_no_change allOkEnv initWindow 7 (Or.inl (by decide))⟩,
   ⟨by decide, poll_frame_no_change allOkEnv (markExecuted initWindow 15) 15
      (Or.inr (by decide))⟩⟩

/-- Claim C9: over the simulated 60 minute clock (six polls per minute)
with every script present and succeeding, exactly four runs are
admitted, one per mark in order 0, 15, 30, 45, each Completed; and the
event trace of each run passes through ingestion, then the analysis
launches and joins, then alerting, reaching the Completed outcome. -/
theorem roundtrip_four_runs :
    (runPolls allOkEnv initWindow sixtyMinutePolls).2 =
        [(0, Outcome.Completed), (15, Outcome.Completed),
         (30, Outcome.Completed), (45, Outcome.Completed)]
      ∧ (execute_pipeline allOkEnv).1 =
        [Event.runIngestion,
         Event.launchIndicator 0, Event.launchIndicator 1,
         Event.launchIndicator 2, Event.launchIndicator 3,
         Event.waitIndicator 0, Event.waitIndicator 1,
         Event.waitIndicator 2, Event.waitIndicator 3,
         Event.logAllCalculated, Event.runAlert, Event.logElapsed]
      ∧ (execute_pipeline allOkEnv).2 = Outcome.Completed := by
  refine ⟨by decide, by decide, by decide⟩

/-- Counterexample to claim C8: in the configuration failEnv the run
reaches the terminal Aborted state, yet no elapsed-duration report
appears in its trace — the source computes and logs the elapsed time
only on the success path of execute_pipeline. -/
theorem elapsed_missing_on_abort_cex :
    (execute_pipeline failEnv).2 = Outcome.Aborted
      ∧ Event.logElapsed ∉ (execute_pipeline failEnv).1 := by
  refine ⟨by decide, by decide⟩

/-- Amended claim C8: the orchestrator reports the total elapsed
duration exactly on the runs that reach Completed; a run that aborts
logs the failure without any duration report. -/
theorem elapsed_reported_iff_completed (env : Env) :
    Event.logElapsed ∈ (execute_pipeline env).1
      ↔ (execute_pipeline env).2 = Outcome.Completed := by
  by_cases hd : env.ingestion.onDisk
  · by_cases hz : env.ingestion.exitCode = 0
    · by_cases had : env.alert.onDisk
      · by_cases haz : env.alert.exitCode = 0
        · simp [execute_pipeline, run_ingestion, run_alerting, hd, hz, had, haz,
            logElapsed_not_mem_analysis]
        · simp [execute_pipeline, run_ingestion, run_alerting, hd, hz, had, haz,
            logElapsed_not_mem_analysis]
      · simp [execute_pipeline, run_ingestion, run_alerting, hd, hz, had,
          logElapsed_not_mem_analysis]
    · simp [execute_pipeline, run_ingestion, hd, hz]
  · by_cases had : env.alert.onDisk
    · by_cases haz : env.alert.exitCode = 0
      · simp [execute_pipeline, run_ingestion, run_alerting, hd, had, haz,
          logElapsed_not_mem_analysis]
      · simp [execute_pipeline, run_ingestion, run_alerting, hd, had, haz,
          logElapsed_not_mem_analysis]
    · simp [execute_pipeline, run_ingestion, run_alerting, hd, had,
        logElapsed_not_mem_analysis]

/-- A configuration whose ingestion script is absent from disk while
every other script exists and succeeds. -/
def missingIngestionEnv : Env :=
  { ingestion := { onDisk := false, exitCode := 0 },
    indicators := [okTask, okTask, okTask, okTask], alert := okTask }

/-- Counterexample to claim C4: when the ingestion script does not
exist, run_ingestion only logs an error and returns normally, so the
run is not aborted — the analysis tasks are launched, the alert task is
invoked, and the run reaches Completed. -/
theorem missing_ingestion_cex :
    (execute_pipeline missingIngestionEnv).2 = Outcome.Completed
      ∧ Event.launchIndicator 0 ∈ (execute_pipeline missingIngestionEnv).1
      ∧ Event.runAlert ∈ (execute_pipeline missingIngestionEnv).1
      ∧ Event.errMissingIngestion ∈ (execute_pipeline missingIngestionEnv).1 := by
  refine ⟨by decide, by decide, by decide, by decide⟩

/-- Amended claim C4: a missing ingestion entry point is logged as an
error but is not treated as a fatal failure — the ingestion process is
never spawned, yet the run proceeds to the analysis and alerting stages
and is not aborted on account of ingestion (it reaches Completed
whenever the alert task itself succeeds). -/
theorem missing_ingestion_not_fatal (env : Env) (h : env.ingestion.onDisk = false) :
    Event.errMissingIngestion ∈ (execute_pipeline env).1
      ∧ Event.runIngestion ∉ (execute_pipeline env).1
      ∧ Event.logAllCalculated ∈ (execute_pipeline env).1
      ∧ (env.alert.onDisk = true → Event.runAlert ∈ (execute_pipeline env).1)
      ∧ (env.alert.onDisk = true → env.alert.exitCode = 0
          → (execute_pipeline env).2 = Outcome.Completed) := by
  have hri : run_ingestion env.ingestion = ([Event.errMissingIngestion], StepResult.ok) := by
    simp [run_ingestion, h]
  have hlog : Event.logAllCalculated ∈ run_analysis_parallel env.indicators := by
    simp [run_analysis_parallel]
  by_cases had : env.alert.onDisk
  · by_cases haz : env.alert.exitCode = 0
    · have hra : run_alerting env.alert = ([Event.runAlert], StepResult.ok) := by
        simp [run_alerting, had, haz]
      refine ⟨?_, ?_, ?_, fun _ => ?_, fun _ _ => ?_⟩ <;>
        simp [execute_pipeline, hri, hra, runIngestion_not_mem_analysis, hlog]
    · have hra : run_alerting env.alert =
          ([Event.runAlert], StepResult.calledProcessError) := by
        simp [run_alerting, had, haz]
      refine ⟨?_, ?_, ?_, fun _ => ?_, fun _ hz => absurd hz haz⟩ <;>
        simp [execute_pipeline, hri, hra, runIngestion_not_mem_analysis, hlog]
  · have hra : run_alerting env.alert = ([Event.errMissingAlert], StepResult.ok) := by
      simp [run_alerting, had]
    refine ⟨?_, ?_, ?_, fun hc => absurd hc had, fun hc _ => absurd hc had⟩ <;>
      simp [execute_pipeline, hri, hra, runIngestion_not_mem_analysis, hlog]

/-- Witness for the amended claim C4 at the concrete configuration with
the ingestion script absent. -/
theorem missing_ingestion_not_fatal_witness :
    missingIngestionEnv.ingestion.onDisk = false
      ∧ (Event.errMissingIngestion ∈ (execute_pipeline missingIngestionEnv).1
        ∧ Event.runIngestion ∉ (execute_pipeline missingIngestionEnv).1
        ∧ Event.logAllCalculated ∈ (execute_pipeline missingIngestionEnv).1
        ∧ (missingIngestionEnv.alert.onDisk = true
            → Event.runAlert ∈ (execute_pipeline missingIngestionEnv).1)
        ∧ (missingIngestionEnv.alert.onDisk = true
            → missingIngestionEnv.alert.exitCode = 0
            → (execute_pipeline missingIngestionEnv).2 = Outcome.Completed)) :=
  ⟨rfl, missing_ingestion_not_fatal missingIngestionEnv rfl⟩

/-- StageResult as the data-model section of the specification
describes it.  The source defines no such type: this definition follows
the wording of the specification, to state what claim C5 requires of
the analysis stage. -/
inductive StageResult where
  | Success
  | PartialFailure (failed : List Nat)
deriving DecidableEq, Repr

/-- Indices of the analysis tasks that fail in the sense of the
specification: the referenced script is missing, or its process exits
nonzero.  The parameter k is the index of the first script of l. -/
def specFailedIdxs : List TaskSpec → Nat → List Nat
  | [], _ => []
  | t :: rest, k =>
    (if !t.onDisk || t.exitCode != 0 then [k] else []) ++ specFailedIdxs rest (k + 1)

/-- The analysis stage result the specification prescribes: Success
when no task fails, else PartialFailure listing the failed
references. -/
def specAnalysisStageResult (l : List TaskSpec) : StageResult :=
  if specFailedIdxs l 0 = [] then StageResult.Success
  else StageResult.PartialFailure (specFailedIdxs l 0)

/-- The configured indicator list with exactly one failing task (index
0 exits with status 1) and three succeeding tasks. -/
def oneFailIndicators : List TaskSpec :=
  [{ onDisk := true, exitCode := 1 }, okTask, okTask, okTask]

/-- Counterexample to claim C5: with k = 1 of the N = 4 analysis tasks
failing, the stage would have to produce PartialFailure [0], and with
k = 0 it would have to produce Success — but the source discards the
value of p.wait() for every process, so the entire observable behavior
of run_analysis_parallel is identical in the two configurations.  The
code therefore records no failed reference at all: no output of the
stage can be the Success of the k = 0 case and simultaneously the
PartialFailure [0] the claim requires in the k = 1 case. -/
theorem analysis_records_no_failures_cex :
    run_analysis_parallel oneFailIndicators = run_analysis_parallel allOkEnv.indicators
      ∧ specAnalysisStageResult oneFailIndicators = StageResult.PartialFailure [0]
      ∧ specAnalysisStageResult allOkEnv.indicators = StageResult.Success := by
  refine ⟨by decide, by decide, by decide⟩

lemma launch_congr_of_onDisk :
    ∀ (l l' : List TaskSpec), l.map TaskSpec.onDisk = l'.map TaskSpec.onDisk →
      ∀ k, launchPhase l k = launchPhase l' k ∧ launchedIdxs l k = launchedIdxs l' k := by
  intro l
  induction l with
  | nil =>
      intro l' h k
      cases l' with
      | nil => exact ⟨rfl, rfl⟩
      | cons t' rest' => simp at h
  | cons t rest ih =>
      intro l' h k
      cases l' with
      | nil => simp at h
      | cons t' rest' =>
          simp only [List.map, List.cons.injEq] at h
          obtain ⟨h1, h2⟩ := h
          obtain ⟨hl, hi⟩ := ih rest' h2 (k + 1)
          constructor <;> simp [launchPhase, launchedIdxs, h1, hl, hi]

/-- Amended claim C5: the analysis stage records no failure
information.  Its behavior depends only on which indicator scripts
exist on disk; the exit statuses of the launched tasks — hence the
number k of failing tasks — do not influence its result in any way,
and no PartialFailure value listing failed references exists in the
source. -/
theorem analysis_ignores_exit_status (l l' : List TaskSpec)
    (h : l.map TaskSpec.onDisk = l'.map TaskSpec.onDisk) :
    run_analysis_parallel l = run_analysis_parallel l' := by
  obtain ⟨hl, hi⟩ := launch_congr_of_onDisk l l' h 0
  simp [run_analysis_parallel, hl, hi]

/-- Witness for the amended claim C5: two single-task configurations
differing only in the exit status produce identical stage behavior. -/
theorem analysis_ignores_exit_status_witness :
    ([{ onDisk := true, exitCode := 0 }] : List TaskSpec).map TaskSpec.onDisk
        = ([{ onDisk := true, exitCode := 7 }] : List TaskSpec).map TaskSpec.onDisk
      ∧ run_analysis_parallel [{ onDisk := true, exitCode := 0 }]
        = run_analysis_parallel [{ onDisk := true, exitCode := 7 }] :=
  ⟨by decide, analysis_ignores_exit_status
    [{ onDisk := true, exitCode := 0 }] [{ onDisk := true, exitCode := 7 }] (by decide)⟩

/-- Claim C6: whenever ingestion succeeds and the alert script exists,
the alert task is invoked exactly once, whatever the exit statuses of
the analysis tasks; and every indicator script that exists on disk is
launched — analysis failures neither cancel siblings nor prevent the
alerting stage. -/
theorem alert_invoked_once (env : Env)
    (h1 : env.ingestion.onDisk = true) (h2 : env.ingestion.exitCode = 0)
    (h3 : env.alert.onDisk = true) :
    ((execute_pipeline env).1.count Event.runAlert = 1)
      ∧ ∀ i ∈ launchedIdxs env.indicators 0,
          Event.launchIndicator i ∈ (execute_pipeline env).1 := by
  have hri : run_ingestion env.ingestion = ([Event.runIngestion], StepResult.ok) := by
    simp [run_ingestion, h1, h2]
  have hcount0 : (run_analysis_parallel env.indicators).count Event.runAlert = 0 :=
    List.count_eq_zero.mpr (runAlert_not_mem_analysis env.indicators)
  have hmem : ∀ i ∈ launchedIdxs env.indicators 0,
      Event.launchIndicator i ∈ run_analysis_parallel env.indicators := by
    intro i hi
    unfold run_analysis_parallel
    exact List.mem_append_left _
      (List.mem_append_left _ ((launch_mem_launchPhase_iff _ _ _).mpr hi))
  by_cases haz : env.alert.exitCode = 0
  · have hra : run_alerting env.alert = ([Event.runAlert], StepResult.ok) := by
      simp [run_alerting, h3, haz]
    have htr : (execute_pipeline env).1 =
        [Event.runIngestion] ++ run_analysis_parallel env.indicators
          ++ [Event.runAlert] ++ [Event.logElapsed] := by
      simp [execute_pipeline, hri, hra]
    constructor
    · rw [htr]; simp only [List.count_append, hcount0]; decide
    · intro i hi
      rw [htr]
      exact List.mem_append_left _
        (List.mem_append_left _ (List.mem_append_right _ (hmem i hi)))
  · have hra : run_alerting env.alert =
        ([Event.runAlert], StepResult.calledProcessError) := by
      simp [run_alerting, h3, haz]
    have htr : (execute_pipeline env).1 =
        [Event.runIngestion] ++ run_analysis_parallel env.indicators
          ++ [Event.runAlert] ++ [Event.logPipelineFailed] := by
      simp [execute_pipeline, hri, hra]
    constructor
    · rw [htr]; simp only [List.count_append, hcount0]; decide
    · intro i hi
      rw [htr]
      exact List.mem_append_left _
        (List.mem_append_left _ (List.mem_append_right _ (hmem i hi)))

/-- A configuration where two of the four analysis tasks fail, one is
missing, and ingestion and alerting succeed. -/
def mixedAnalysisEnv : Env :=
  { ingestion := okTask,
    indicators := [{ onDisk := true, exitCode := 1 }, okTask,
                   { onDisk := false, exitCode := 0 }, { onDisk := true, exitCode := 2 }],
    alert := okTask }

/-- Witness for C6 at a configuration with failing and missing analysis
tasks. -/
theorem alert_invoked_once_witness :
    mixedAnalysisEnv.ingestion.onDisk = true
      ∧ mixedAnalysisEnv.ingestion.exitCode = 0
      ∧ mixedAnalysisEnv.alert.onDisk = true
      ∧ (((execute_pipeline mixedAnalysisEnv).1.count Event.runAlert = 1)
        ∧ ∀ i ∈ launchedIdxs mixedAnalysisEnv.indicators 0,
            Event.launchIndicator i ∈ (execute_pipeline mixedAnalysisEnv).1) :=
  ⟨rfl, rfl, rfl, alert_invoked_once mixedAnalysisEnv rfl rfl rfl⟩

lemma seqBefore_of_split {xs ys : List Event} {a b : Event}
    (ha : a ∈ xs) (hb : b ∉ xs) : seqBefore (xs ++ ys) a b := by
  intro l1 l2 hdecomp
  rcases List.append_eq_append_iff.mp hdecomp with ⟨a', ha1, _⟩ | ⟨c', hc1, hc2⟩
  · rw [ha1]; exact List.mem_append_left _ ha
  · cases c' with
    | nil =>
        rw [List.append_nil] at hc1
        rw [← hc1]; exact ha
    | cons x c'' =>
        simp only [List.cons_append, List.cons.injEq] at hc2
        obtain ⟨hx, _⟩ := hc2
        subst hx
        exact absurd (hc1 ▸ List.mem_append_right l1 (List.mem_cons_self _ _)) hb

lemma logAll_not_mem_ingestion_fst (t : TaskSpec) :
    Event.logAllCalculated ∉ (run_ingestion t).1 := by
  rcases run_ingestion_fst t with h | h <;> simp [h]

lemma runAlert_not_mem_ingestion_fst (t : TaskSpec) :
    Event.runAlert ∉ (run_ingestion t).1 := by
  rcases run_ingestion_fst t with h | h <;> simp [h]

lemma launch_not_mem_ingestion_fst (t : TaskSpec) (i : Nat) :
    Event.launchIndicator i ∉ (run_ingestion t).1 := by
  rcases run_ingestion_fst t with h | h <;> simp [h]

lemma wait_not_mem_ingestion_fst (t : TaskSpec) (i : Nat) :
    Event.waitIndicator i ∉ (run_ingestion t).1 := by
  rcases run_ingestion_fst t with h | h <;> simp [h]

/-- Claim C7: the analysis stage logs its completion, and the alert
task is invoked, only after every launched analysis task has been
waited on.  Formally, every analysis task whose launch appears in the
trace of a run also has its join in the trace, and every occurrence of
the stage-completion log line and of the alert invocation is preceded
by that join. -/
theorem analysis_join_barrier (env : Env) (i : Nat)
    (h : Event.launchIndicator i ∈ (execute_pipeline env).1) :
    Event.waitIndicator i ∈ (execute_pipeline env).1
      ∧ seqBefore (execute_pipeline env).1 (Event.waitIndicator i) Event.logAllCalculated
      ∧ seqBefore (execute_pipeline env).1 (Event.waitIndicator i) Event.runAlert := by
  cases hr : (run_ingestion env.ingestion).2
  case calledProcessError =>
      obtain ⟨htr, _⟩ := execute_pipeline_err_split env hr
      rw [htr] at h
      rcases List.mem_append.mp h with hc | hc
      · exact absurd hc (launch_not_mem_ingestion_fst env.ingestion i)
      · simp at hc
  case ok =>
      obtain ⟨tail, htr, hnl, hnw, hnc⟩ := execute_pipeline_ok_split env hr
      rw [htr] at h
      have h2 : Event.launchIndicator i ∈ run_analysis_parallel env.indicators := by
        rcases List.mem_append.mp h with hc | hc
        · exact absurd hc (launch_not_mem_ingestion_fst env.ingestion i)
        · rcases List.mem_append.mp hc with hc | hc
          · exact hc
          · exact absurd hc (hnl i)
      have hidx : i ∈ launchedIdxs env.indicators 0 := by
        unfold run_analysis_parallel at h2
        rcases List.mem_append.mp h2 with hc | hc
        · rcases List.mem_append.mp hc with hc | hc
          · exact (launch_mem_launchPhase_iff _ _ _).mp hc
          · exact absurd (mem_waitMap_shape _ _ hc) (by simp)
        · simp at hc
      have hwaitmap : Event.waitIndicator i
          ∈ (launchedIdxs env.indicators 0).map Event.waitIndicator :=
        List.mem_map_of_mem Event.waitIndicator hidx
      have hwaitA : Event.waitIndicator i ∈ run_analysis_parallel env.indicators := by
        unfold run_analysis_parallel
        exact List.mem_append_left _ (List.mem_append_right _ hwaitmap)
      refine ⟨?_, ?_, ?_⟩
      · rw [htr]
        exact List.mem_append_right _ (List.mem_append_left _ hwaitA)
      · -- split the trace just before the completion log line
        have hsplit : (execute_pipeline env).1 =
            ((run_ingestion env.ingestion).1
              ++ (launchPhase env.indicators 0
                ++ (launchedIdxs env.indicators 0).map Event.waitIndicator))
            ++ ([Event.logAllCalculated] ++ tail) := by
          rw [htr]; simp [run_analysis_parallel, List.append_assoc]
        rw [hsplit]
        refine seqBefore_of_split ?_ ?_
        · exact List.mem_append_right _ (List.mem_append_right _ hwaitmap)
        · intro hc
          rcases List.mem_append.mp hc with hc | hc
          · exact absurd hc (logAll_not_mem_ingestion_fst env.ingestion)
          · rcases List.mem_append.mp hc with hc | hc
            · exact absurd hc (logAll_not_mem_launchPhase _ _)
            · exact absurd hc (logAll_not_mem_waitMap _)
      · -- split the trace after the whole analysis stage
        have hsplit : (execute_pipeline env).1 =
            ((run_ingestion env.ingestion).1 ++ run_analysis_parallel env.indicators)
              ++ tail := by
          rw [htr]; simp [List.append_assoc]
        rw [hsplit]
        refine seqBefore_of_split ?_ ?_
        · exact List.mem_append_right _ hwaitA
        · intro hc
          rcases List.mem_append.mp hc with hc | hc
          · exact absurd hc (runAlert_not_mem_ingestion_fst env.ingestion)
          · exact absurd hc (runAlert_not_mem_analysis _)

/-- Witness for C7 at the all-success configuration, for the first
indicator script. -/
theorem analysis_join_barrier_witness :
    Event.launchIndicator 0 ∈ (execute_pipeline allOkEnv).1
      ∧ (Event.waitIndicator 0 ∈ (execute_pipeline allOkEnv).1
        ∧ seqBefore (execute_pipeline allOkEnv).1
            (Event.waitIndicator 0) Event.logAllCalculated
        ∧ seqBefore (execute_pipeline allOkEnv).1
            (Event.waitIndicator 0) Event.runAlert) :=
  ⟨by decide, analysis_join_barrier allOkEnv 0 (by decide)⟩

lemma pollStep_skip (env : Env) (s : WindowState) (cur : Nat)
    (h : cur ∉ triggerMarks ∨ s.flag cur = true) :
    pollStep env s cur = (s, [], none) := by
  rcases h with h | h
  · simp [pollStep, h]
  · by_cases hm : cur ∈ triggerMarks
    · simp [pollStep, hm, h]
    · simp [pollStep, hm]

lemma pollStep_fire (env : Env) (s : WindowState) (cur : Nat)
    (h1 : cur ∈ triggerMarks) (h2 : s.flag cur = false) :
    pollStep env s cur =
      (markExecuted s cur, (execute_pipeline env).1,
        some (cur, (execute_pipeline env).2)) := by
  simp [pollStep, h1, h2]

lemma flag_markExecuted_self (s : WindowState) (cur : Nat)
    (h : cur ∈ triggerMarks) : (markExecuted s cur).flag cur = true := by
  simp only [triggerMarks, List.mem_cons, List.not_mem_nil, or_false] at h
  rcases h with rfl | rfl | rfl | rfl <;> rfl

lemma flag_markExecuted_other (s : WindowState) (cur m : Nat)
    (hm : m ∈ triggerMarks) (hne : m ≠ cur) :
    (markExecuted s cur).flag m = false := by
  simp only [triggerMarks, List.mem_cons, List.not_mem_nil, or_false] at hm
  rcases hm with rfl | rfl | rfl | rfl <;>
    simp [markExecuted, WindowState.flag, decide_eq_false_iff_not] <;> omega

lemma flag_persists (env : Env) (M : Nat) :
    ∀ (polls : List Nat) (s : WindowState), s.flag M = true →
      (∀ out, (runPolls env s polls).2.head? ≠ some (M, out))
      ∧ ((runPolls env s polls).2 = [] → (runPolls env s polls).1.flag M = true) := by
  intro polls
  induction polls with
  | nil => intro s h; simp [runPolls, h]
  | cons cur rest ih =>
      intro s h
      by_cases hmem : cur ∈ triggerMarks
      · by_cases hflag : s.flag cur = false
        · have hne : cur ≠ M := by
            intro he
            rw [he, h] at hflag
            cases hflag
          have hstep := pollStep_fire env s cur hmem hflag
          simp only [runPolls, hstep]
          constructor
          · intro out hcontra
            simp only [Option.toList_some, List.cons_append, List.head?_cons,
              Option.some.injEq, Prod.mk.injEq] at hcontra
            exact hne hcontra.1
          · intro hempty
            simp at hempty
        · have hflag' : s.flag cur = true := by
            revert hflag; cases s.flag cur <;> simp
          have hstep := pollStep_skip env s cur (Or.inr hflag')
          simp only [runPolls, hstep]
          simpa using ih s h
      · have hstep := pollStep_skip env s cur (Or.inl hmem)
        simp only [runPolls, hstep]
        simpa using ih s h

/-- Claim C2: a run admitted at mark M sets the executed flag of M; as
long as that flag is set, shouldRun M is false and no further run is
admitted for M: over any later sequence of polls, the first admitted
run (if any) belongs to a different mark — only such a run, through
markExecuted on that other mark, clears the flag of M — and if no run
is admitted at all (in particular under repeated polls within the same
minute), the flag of M stays set and shouldRun M stays false. -/
theorem no_second_admission_for_mark (env : Env) (s : WindowState)
    (M : Nat) (polls : List Nat)
    (hM : M ∈ triggerMarks) (h : s.flag M = true) :
    (∀ s0 : WindowState, s0.flag M = false → (pollStep env s0 M).1.flag M = true)
      ∧ shouldRun s M = false
      ∧ (∀ out, (runPolls env s polls).2.head? ≠ some (M, out))
      ∧ ((runPolls env s polls).2 = []
          → (runPolls env s polls).1.flag M = true
            ∧ shouldRun (runPolls env s polls).1 M = false) := by
  obtain ⟨h1, h2⟩ := flag_persists env M polls s h
  refine ⟨?_, by simp [shouldRun, h], h1, fun he => ?_⟩
  · intro s0 h0
    rw [pollStep_fire env s0 M hM h0]
    exact flag_markExecuted_self s0 M hM
  · have hf := h2 he
    exact ⟨hf, by simp [shouldRun, hf]⟩

/-- Witness for C2: after the run admitted at mark 15, six further
polls within the same minute admit nothing and leave the flag of 15
set. -/
theorem no_second_admission_for_mark_witness :
    (15 : Nat) ∈ triggerMarks
      ∧ (markExecuted initWindow 15).flag 15 = true
      ∧ ((∀ s0 : WindowState, s0.flag 15 = false
            → (pollStep allOkEnv s0 15).1.flag 15 = true)
        ∧ shouldRun (markExecuted initWindow 15) 15 = false
        ∧ (∀ out, (runPolls allOkEnv (markExecuted initWindow 15)
              [15, 15, 15, 15, 15, 15]).2.head? ≠ some (15, out))
        ∧ ((runPolls allOkEnv (markExecuted initWindow 15)
              [15, 15, 15, 15, 15, 15]).2 = []
            → (runPolls allOkEnv (markExecuted initWindow 15)
                [15, 15, 15, 15, 15, 15]).1.flag 15 = true
              ∧ shouldRun (runPolls allOkEnv (markExecuted initWindow 15)
                  [15, 15, 15, 15, 15, 15]).1 15 = false)) :=
  ⟨by decide, by decide,
    no_second_admission_for_mark allOkEnv (markExecuted initWindow 15) 15
      [15, 15, 15, 15, 15, 15] (by decide) (by decide)⟩

lemma markExecuted_trueCount (s : WindowState) (cur : Nat) :
    (markExecuted s cur).trueCount ≤ 1 := by
  by_cases h0 : cur = 0
  · subst h0; simp [markExecuted, WindowState.trueCount]
  · by_cases h15 : cur = 15
    · subst h15; simp [markExecuted, WindowState.trueCount]
    · by_cases h30 : cur = 30
      · subst h30; simp [markExecuted, WindowState.trueCount]
      · by_cases h45 : cur = 45
        · subst h45; simp [markExecuted, WindowState.trueCount]
        · simp [markExecuted, WindowState.trueCount, h0, h15, h30, h45]

lemma pollStep_trueCount (env : Env) (s : WindowState) (cur : Nat)
    (h : s.trueCount ≤ 1) : (pollStep env s cur).1.trueCount ≤ 1 := by
  by_cases hm : cur ∈ triggerMarks
  · by_cases hf : s.flag cur = false
    · rw [pollStep_fire env s cur hm hf]
      exact markExecuted_trueCount s cur
    · rw [pollStep_skip env s cur
        (Or.inr (by revert hf; cases s.flag cur <;> simp))]
      exact h
  · rw [pollStep_skip env s cur (Or.inl hm)]
    exact h

lemma runPolls_trueCount (env : Env) :
    ∀ (polls : List Nat) (s : WindowState), s.trueCount ≤ 1 →
      (runPolls env s polls).1.trueCount ≤ 1 := by
  intro polls
  induction polls with
  | nil => intro s h; exact h
  | cons cur rest ih =>
      intro s h
      exact ih (pollStep env s cur).1 (pollStep_trueCount env s cur h)

/-- Claim C3: in every window state the polling loop reaches from the
initial all-false dict, at most one executed flag is set; and the
mark-executed update sets exactly the fired mark and clears every other
mark. -/
theorem window_single_active_invariant (env : Env) (polls : List Nat)
    (s : WindowState) (cur m : Nat)
    (hc : cur ∈ triggerMarks) (hm : m ∈ triggerMarks) (hne : m ≠ cur) :
    (runPolls env initWindow polls).1.trueCount ≤ 1
      ∧ (markExecuted s cur).flag cur = true
      ∧ (markExecuted s cur).flag m = false :=
  ⟨runPolls_trueCount env polls initWindow (by decide),
    flag_markExecuted_self s cur hc,
    flag_markExecuted_other s cur m hm hne⟩

/-- Witness for C3: the invariant evaluated after three concrete polls,
and the update at mark 15 observed at mark 0. -/
theorem window_single_active_invariant_witness :
    (0 : Nat) ∈ triggerMarks ∧ (15 : Nat) ∈ triggerMarks ∧ (0 : Nat) ≠ 15
      ∧ ((runPolls allOkEnv initWindow [0, 1, 15]).1.trueCount ≤ 1
        ∧ (markExecuted initWindow 15).flag 15 = true
        ∧ (markExecuted initWindow 15).flag 0 = false) :=
  ⟨by decide, by decide, by decide,
    window_single_active_invariant allOkEnv [0, 1, 15] initWindow 15 0
      (by decide) (by decide) (by decide)⟩
